import Mathlib

/-!
Shallow embedding of `src/main.py` (pixivutil-lrr-updater).

Python strings are modelled as `List Char` (`PyStr`).  The sqlite database
and the remote LANraragi server are modelled as explicit data (`PixivDb`,
`LRRServer`); every query of the code becomes a `find?`/`filter` over the
corresponding table list, and the remote update call of one archive is a
function from the attempt index to the response of that attempt.
-/

set_option autoImplicit false

abbrev PyStr := List Char

/-! ### sanitize_tag (main.py lines 25-40) -/

/-- characters removed by the regex `["?*%$:]` on line 29. -/
def isReservedChar (c : Char) : Bool :=
  c = '\x22' || c = '?' || c = '*' || c = '%' || c = '$' || c = ':'

/-- line 29: `re.sub(r'["?*%$:]', '', sanitized)`. -/
def removeReserved (l : PyStr) : PyStr :=
  l.filter (fun c => !isReservedChar c)

/-- line 32: `sanitized.replace('_', ' ')`. -/
def underscoreToSpace (l : PyStr) : PyStr :=
  l.map (fun c => if c = '_' then ' ' else c)

/-- line 35: `sanitized.replace(' -', ' ')` — Python `str.replace` rewrites
non-overlapping occurrences left to right. -/
def dropNegationHyphen : PyStr → PyStr
  | [] => []
  | [c] => [c]
  | c :: d :: rest =>
    if c = ' ' && d = '-' then ' ' :: dropNegationHyphen rest
    else c :: dropNegationHyphen (d :: rest)

/-- whether the two-character sequence space-hyphen occurs in the string. -/
def hasSpaceHyphen : PyStr → Bool
  | [] => false
  | [_] => false
  | c :: d :: rest => (c = ' ' && d = '-') || hasSpaceHyphen (d :: rest)

/-- `sanitize_tag` (lines 25-40); the log emission on line 38 is side-effect
only and is not modelled. -/
def sanitize_tag (l : PyStr) : PyStr :=
  dropNegationHyphen (underscoreToSpace (removeReserved l))

/-! ### Python string helpers used on lines 61-62 and 76/118 -/

/-- Python whitespace characters stripped by `str.strip()`. -/
def isPyWS (c : Char) : Bool :=
  c = ' ' || c = '\t' || c = '\n' || c = '\r' || c = '\x0b' || c = '\x0c'

/-- Python `str.strip()`. -/
def pyStrip (l : PyStr) : PyStr :=
  ((l.dropWhile isPyWS).reverse.dropWhile isPyWS).reverse

/-- whether `sep` is an initial segment of the second argument. -/
def matchesAt : PyStr → PyStr → Bool
  | [], _ => true
  | _ :: _, [] => false
  | a :: as, b :: bs => a == b && matchesAt as bs

/-- split a string at the first occurrence of `sep`: the part strictly before
it and the part strictly after it, or `none` when `sep` does not occur. -/
def splitAtSep (sep : PyStr) : PyStr → Option (PyStr × PyStr)
  | [] => none
  | c :: rest =>
    if matchesAt sep (c :: rest) then some ([], (c :: rest).drop sep.length)
    else (splitAtSep sep rest).map (fun p => (c :: p.1, p.2))

/-- element `[1]` of Python `s.split(sep)` for a non-empty `sep`: the text
between the first occurrence of `sep` and the next occurrence (or the end);
`none` when `sep` does not occur at all (Python raises `IndexError`). -/
def pieceAfterFirst (sep : PyStr) (l : PyStr) : Option PyStr :=
  match splitAtSep sep l with
  | none => none
  | some p =>
    match splitAtSep sep p.2 with
    | none => some p.2
    | some q => some q.1

/-- Python `s.split(",")`: splitting the empty string yields `[""]`. -/
def pySplitComma : PyStr → List PyStr
  | [] => [[]]
  | c :: rest =>
    if c = ',' then [] :: pySplitComma rest
    else
      match pySplitComma rest with
      | [] => [[c]]
      | p :: ps => (c :: p) :: ps

/-- Python `",".join(parts)`. -/
def joinComma : List PyStr → PyStr
  | [] => []
  | [p] => p
  | p :: q :: rest => p ++ ',' :: joinComma (q :: rest)

/-- Python `str.isdigit()` restricted to ASCII digits: true on non-empty
all-digit strings. -/
def pyIsDigit (l : PyStr) : Bool :=
  !l.isEmpty && l.all Char.isDigit

/-- numeric value of a digit string (Python `int(s)`). -/
def digitsToNat (l : PyStr) : Nat :=
  l.foldl (fun n c => n * 10 + (c.toNat - 48)) 0

/-! ### error taxonomy: each `raise Exception(...)` site of main.py -/

inductive Err where
  /-- line 57: get_archive_metadata returned an error. -/
  | getMetaFailed
  /-- line 61: `filename.split("pixiv_")[1]` raises IndexError when the
  marker is absent. -/
  | filenameIndex
  /-- line 63: `Invalid Pixiv ID format from filename`. -/
  | invalidPixivId
  /-- line 87: `Pixiv artwork has no member`. -/
  | missingMember
  /-- line 136: `Failed to update archive metadata` (non-423 error). -/
  | remoteRejected
  /-- line 130: `Persistent lock problem encountered`. -/
  | persistentLock
  /-- line 145: network exception re-raised after retries are exhausted. -/
  | persistentNet
  /-- line 160: `Failed to confirm API key validity`. -/
  | authFailed
  /-- line 182: `Failed to get untagged archives`. -/
  | untaggedFailed
  /-- line 176: `Required table does not exist`. -/
  | missingTable (t : PyStr)
deriving DecidableEq

/-- the literal `"pixiv_"` of line 61. -/
def pixivMarker : PyStr := "pixiv_".toList

/-- lines 61-63: `filename.split("pixiv_")[1].strip()` followed by the
`isdigit` check and `int(...)`. -/
def parsePixivId (filename : PyStr) : Except Err Nat :=
  match pieceAfterFirst pixivMarker filename with
  | none => Except.error Err.filenameIndex
  | some piece =>
    let s := pyStrip piece
    if pyIsDigit s then Except.ok (digitsToNat s) else Except.error Err.invalidPixivId

/-! ### relational database model (the pixivutil2 sqlite database) -/

/-- one row of `pixiv_master_image` (columns used on line 68). -/
structure SourceImage where
  image_id : Nat
  member_id : Nat
  title : PyStr
  caption : PyStr
deriving DecidableEq

/-- one row of `pixiv_tag_translation` (columns used on line 101). -/
structure TagTranslation where
  translation_type : PyStr
  tag_id : PyStr
  translation : PyStr
deriving DecidableEq

/-- one row of `pixiv_date_info` (columns used on line 109). -/
structure DateInfo where
  image_id : Nat
  created_date_epoch : Int
  uploaded_date_epoch : Int
deriving DecidableEq

/-- the sqlite database: each table as a list of rows (in stored order), plus
the set of table names visible to the `sqlite_master` introspection query of
lines 172-176. -/
structure PixivDb where
  tables : List PyStr
  pixiv_master_image : List SourceImage
  pixiv_master_member : List (Nat × PyStr)
  pixiv_image_to_tag : List (Nat × PyStr)
  pixiv_tag_translation : List TagTranslation
  pixiv_date_info : List DateInfo

/-- `fetchone` of the line 67 query (`WHERE image_id = ?`). -/
def imgFind (db : PixivDb) (pid : Nat) : Option SourceImage :=
  db.pixiv_master_image.find? (fun r => r.image_id == pid)

/-- `fetchone` of the line 83 query (`WHERE member_id = ?`). -/
def memFind (db : PixivDb) (mid : Nat) : Option (Nat × PyStr) :=
  db.pixiv_master_member.find? (fun p => p.1 == mid)

/-- `fetchall` of the line 92 query: tag ids linked to the image, in order. -/
def imageTagIds (db : PixivDb) (pid : Nat) : List PyStr :=
  (db.pixiv_image_to_tag.filter (fun p => p.1 == pid)).map Prod.snd

/-- `fetchone` of the line 100 query: the English translation of a tag id. -/
def enTranslation (db : PixivDb) (tid : PyStr) : Option PyStr :=
  (db.pixiv_tag_translation.find?
    (fun r => r.translation_type == "en".toList && r.tag_id == tid)).map
    (fun r => r.translation)

/-- `fetchone` of the line 108 query. -/
def dateFind (db : PixivDb) (pid : Nat) : Option DateInfo :=
  db.pixiv_date_info.find? (fun r => r.image_id == pid)

/-! ### tag-list construction (main.py lines 76-118) -/

/-- line 79: `f"source:https://pixiv.net/artworks/{image_id}"` (verbatim, not
sanitized). -/
def sourceTag (imageId : Nat) : PyStr :=
  "source:https://pixiv.net/artworks/".toList ++ (toString imageId).toList

/-- line 82: `f"pixiv_user_id:{member_id}"` (verbatim, not sanitized). -/
def userIdTag (memberId : Nat) : PyStr :=
  "pixiv_user_id:".toList ++ (toString memberId).toList

/-- line 89: `f"artist:{sanitize_tag(member_name)}"`. -/
def artistTag (memberName : PyStr) : PyStr :=
  "artist:".toList ++ sanitize_tag memberName

/-- lines 95-105, one iteration: the sanitized tag id, then the sanitized
English translation when one exists. -/
def tagEntries (db : PixivDb) (tid : PyStr) : List PyStr :=
  sanitize_tag tid ::
    (match enTranslation db tid with
     | none => []
     | some tr => [sanitize_tag tr])

/-- lines 95-105, the whole loop over the `pixiv_image_to_tag` rows. -/
def tagRowsTags (db : PixivDb) : List PyStr → List PyStr
  | [] => []
  | tid :: rest => tagEntries db tid ++ tagRowsTags db rest

/-- lines 108-116: verbatim `date_created:`/`date_uploaded:` tags when a
`pixiv_date_info` row exists. -/
def dateTags (db : PixivDb) (pid : Nat) : List PyStr :=
  match dateFind db pid with
  | none => []
  | some di =>
    [ "date_created:".toList ++ (toString di.created_date_epoch).toList,
      "date_uploaded:".toList ++ (toString di.uploaded_date_epoch).toList ]

/-- the full `tag_list` of lines 76-116 in append order: the current archive
tags split on `,` and stripped, the source tag, the user-id tag, the artist
tag, the per-tag-row tags, the date tags.  (In the code the member lookup of
lines 83-87 happens between the user-id and artist appends; on the
missing-member path the partial list is discarded by the raised exception, so
factoring the lookup out is observationally identical.) -/
def buildTagList (curTags : PyStr) (pid : Nat) (row : SourceImage)
    (memberName : PyStr) (db : PixivDb) : List PyStr :=
  (pySplitComma curTags).map pyStrip
    ++ [sourceTag row.image_id]
    ++ [userIdTag row.member_id]
    ++ [artistTag memberName]
    ++ tagRowsTags db (imageTagIds db pid)
    ++ dateTags db pid

/-- outcome of the metadata-resolution part (lines 60-118). -/
inductive ResolveOutcome where
  | noMetadata
  | resolved (title summary : PyStr) (tag_list : List PyStr)
deriving DecidableEq

/-- lines 60-118 of `update_archive_metadata`: parse the filename, look up the
image row (absent row means no metadata), look up the member row (absent row
is fatal), and build the tag list. -/
def resolveMetadata (m_filename m_tags : PyStr) (db : PixivDb) :
    Except Err ResolveOutcome :=
  match parsePixivId m_filename with
  | Except.error e => Except.error e
  | Except.ok pid =>
    match imgFind db pid with
    | none => Except.ok ResolveOutcome.noMetadata
    | some row =>
      match memFind db row.member_id with
      | none => Except.error Err.missingMember
      | some mem =>
        Except.ok (ResolveOutcome.resolved row.title row.caption
          (buildTagList m_tags pid row mem.2 db))

/-- line 118: `",".join(set(tag_list))`.  Python's `set` iteration order is
unspecified; the model takes `List.dedup` as the canonical deduplication. -/
def finalTagsString (tag_list : List PyStr) : PyStr :=
  joinComma tag_list.dedup

/-! ### retry/backoff loop (main.py lines 121-149) -/

/-- response of one `update_archive_metadata` remote call: success, an error
with status 423 (locked resource, line 128), an error with any other status
(line 135), or one of the caught network exceptions (lines 138-142). -/
inductive UpdResp where
  | success
  | lockErr
  | netErr
  | otherErr
deriving DecidableEq

/-- observable behaviour of one run of the retry loop: how many remote update
calls were made, the backoff sleeps in order, and the final result. -/
structure UpdTrace where
  attempts : Nat
  sleeps : List Nat
  result : Except Err Unit

/-- line 122: `max_retries = 3`. -/
def max_retries : Nat := 3

/-- the `while True` loop of lines 123-149.  `resp i` is the remote response
to the i-th call (0-based), `rc` is `retry_count`.  `gas` is a structural
bound only: the loop body raises whenever `retry_count > max_retries`, and
`retry_count` grows by one per iteration, so from the entry point
(`gas = max_retries + 2 = 5`, `rc = 0`) the `gas = 0` branch is unreachable
and the recursion is semantically the unbounded loop. -/
def updLoopAux (resp : Nat → UpdResp) : Nat → Nat → Nat → UpdTrace
  | 0, _, i =>
    match resp i with
    | UpdResp.success => ⟨1, [], Except.ok ()⟩
    | UpdResp.otherErr => ⟨1, [], Except.error Err.remoteRejected⟩
    | UpdResp.lockErr => ⟨1, [], Except.error Err.persistentLock⟩
    | UpdResp.netErr => ⟨1, [], Except.error Err.persistentNet⟩
  | gas + 1, rc, i =>
    match resp i with
    | UpdResp.success => ⟨1, [], Except.ok ()⟩
    | UpdResp.otherErr => ⟨1, [], Except.error Err.remoteRejected⟩
    | UpdResp.lockErr =>
      if rc > max_retries then ⟨1, [], Except.error Err.persistentLock⟩
      else
        let t := updLoopAux resp gas (rc + 1) (i + 1)
        ⟨t.attempts + 1, 2 ^ (rc + 1) :: t.sleeps, t.result⟩
    | UpdResp.netErr =>
      if rc > max_retries then ⟨1, [], Except.error Err.persistentNet⟩
      else
        let t := updLoopAux resp gas (rc + 1) (i + 1)
        ⟨t.attempts + 1, 2 ^ (rc + 1) :: t.sleeps, t.result⟩

/-- the retry loop as entered on line 121 with `retry_count = 0`. -/
def updateWithRetry (resp : Nat → UpdResp) : UpdTrace :=
  updLoopAux resp (max_retries + 2) 0 0

/-! ### remote server model and the per-archive task (lines 42-151) -/

/-- metadata returned by `get_archive_metadata` (line 55). -/
structure ArchiveMeta where
  filename : PyStr
  tags : PyStr
  title : PyStr
  summary : PyStr
deriving DecidableEq

/-- the remote LANraragi server: the shinobu (credential) check of line 158,
the untagged-archives call of line 180, the per-archive metadata of line 55,
and the response of each per-archive update attempt (lines 125-127). -/
structure LRRServer where
  shinobuOk : Bool
  untaggedOk : Bool
  untagged : List PyStr
  meta : PyStr → Option ArchiveMeta
  updResp : PyStr → Nat → UpdResp

/-- the `TaskResult` enum of lines 19-22. -/
inductive TaskResultM where
  | success
  | noMetadata
deriving DecidableEq

/-- `TaskResult.value` (the enum's string payload). -/
def TaskResultM.value : TaskResultM → PyStr
  | TaskResultM.success => "SUCCESS".toList
  | TaskResultM.noMetadata => "PIXIVUTIL_NO_METADATA".toList

/-- `update_archive_metadata` (lines 42-151): fetch the archive metadata,
resolve it against the database, and run the retry loop; any `raise` becomes
`Except.error`. -/
def update_archive_metadata (arcid : PyStr) (lrr : LRRServer) (db : PixivDb) :
    Except Err TaskResultM :=
  match lrr.meta arcid with
  | none => Except.error Err.getMetaFailed
  | some m =>
    match resolveMetadata m.filename m.tags db with
    | Except.error e => Except.error e
    | Except.ok ResolveOutcome.noMetadata => Except.ok TaskResultM.noMetadata
    | Except.ok (ResolveOutcome.resolved _ _ _) =>
      match (updateWithRetry (lrr.updResp arcid)).result with
      | Except.error e => Except.error e
      | Except.ok _ => Except.ok TaskResultM.success

/-! ### pipeline (update_lrr_metadata, lines 153-191) -/

/-- the `result_mapping` dict, abstracted as a function from outcome-kind
string to the list of arcids appended under that key (a Python dict of lists
is this function restricted to its finitely many present keys; key insertion
order only affects the JSON serialization, which is outside the core). -/
abbrev Mapping := PyStr → List PyStr

/-- lines 187-189: create the bucket when absent, then append the arcid. -/
def addToMapping (m : Mapping) (k v : PyStr) : Mapping :=
  fun k2 => if k2 = k then m k ++ [v] else m k2

/-- the `for arcid in arcids` loop of lines 185-190: a raised exception in
`update_archive_metadata` aborts the whole loop with no mapping returned. -/
def processAll (lrr : LRRServer) (db : PixivDb) :
    List PyStr → Mapping → Except Err Mapping
  | [], acc => Except.ok acc
  | arcid :: rest, acc =>
    match update_archive_metadata arcid lrr db with
    | Except.error e => Except.error e
    | Except.ok r => processAll lrr db rest (addToMapping acc r.value arcid)

/-- lines 163-171: the seven required table names, in check order. -/
def required_tables : List PyStr :=
  [ "pixiv_master_image".toList,
    "pixiv_manga_image".toList,
    "pixiv_date_info".toList,
    "pixiv_image_to_tag".toList,
    "pixiv_master_member".toList,
    "pixiv_master_tag".toList,
    "pixiv_tag_translation".toList ]

/-- `update_lrr_metadata` (lines 153-191): credential check, required-table
check (first missing table aborts), untagged enumeration, then the
per-archive loop threading the result mapping. -/
def update_lrr_metadata (lrr : LRRServer) (db : PixivDb) : Except Err Mapping :=
  if lrr.shinobuOk = false then Except.error Err.authFailed
  else
    match required_tables.find? (fun t => !db.tables.contains t) with
    | some t => Except.error (Err.missingTable t)
    | none =>
      if lrr.untaggedOk = false then Except.error Err.untaggedFailed
      else processAll lrr db lrr.untagged (fun _ => [])

/-! ### concrete environments (the end-to-end scenario of spec §8, and
environments exercising the error paths) -/

/-- a remote that answers 423 (locked) to every update attempt. -/
def respLockAlways : Nat → UpdResp := fun _ => UpdResp.lockErr

/-- a remote that answers 423 to the first three attempts, then succeeds. -/
def respLocks3 : Nat → UpdResp :=
  fun n => if n < 3 then UpdResp.lockErr else UpdResp.success

/-- a remote that answers 423 to the first four attempts, then succeeds. -/
def respLocks4 : Nat → UpdResp :=
  fun n => if n < 4 then UpdResp.lockErr else UpdResp.success

/-- a remote that answers a non-423 error to every update attempt. -/
def respOtherErr : Nat → UpdResp := fun _ => UpdResp.otherErr

/-- the relational store of the spec §8 scenario: image 12345 by member 7
with title `T` and caption `C`, member 7 named `Foo_Bar`, one tag link to
`scenery` with no translation, date info (1000, 2000). -/
def db8 : PixivDb :=
  { tables := required_tables
    pixiv_master_image := [⟨12345, 7, "T".toList, "C".toList⟩]
    pixiv_master_member := [(7, "Foo_Bar".toList)]
    pixiv_image_to_tag := [(12345, "scenery".toList)]
    pixiv_tag_translation := []
    pixiv_date_info := [⟨12345, 1000, 2000⟩] }

/-- the tag list the code builds in the §8 scenario (before deduplication;
here all seven entries are already distinct). -/
def tl8 : List PyStr :=
  [ "date_added:500".toList,
    "source:https://pixiv.net/artworks/12345".toList,
    "pixiv_user_id:7".toList,
    "artist:Foo Bar".toList,
    "scenery".toList,
    "date_created:1000".toList,
    "date_uploaded:2000".toList ]

/-- the tag list built in the §8 scenario when the archive's current tag
string is empty: splitting `""` on `,` seeds the list with the empty tag. -/
def tl10 : List PyStr :=
  [ [],
    "source:https://pixiv.net/artworks/12345".toList,
    "pixiv_user_id:7".toList,
    "artist:Foo Bar".toList,
    "scenery".toList,
    "date_created:1000".toList,
    "date_uploaded:2000".toList ]

/-- archive metadata whose filename encodes image id 99 (absent from db8). -/
def m6 : ArchiveMeta := ⟨"pixiv_99".toList, [], [], []⟩

/-- a healthy server holding one untagged archive `abc123` described by m6. -/
def lrr6 : LRRServer :=
  ⟨true, true, ["abc123".toList], fun _ => some m6, fun _ _ => UpdResp.success⟩

/-- db8 with the member table emptied: image 12345 has no member row. -/
def db7 : PixivDb :=
  { tables := required_tables
    pixiv_master_image := [⟨12345, 7, "T".toList, "C".toList⟩]
    pixiv_master_member := []
    pixiv_image_to_tag := [(12345, "scenery".toList)]
    pixiv_tag_translation := []
    pixiv_date_info := [⟨12345, 1000, 2000⟩] }

/-- archive metadata whose filename encodes image id 12345. -/
def m7 : ArchiveMeta := ⟨"pixiv_12345".toList, "date_added:500".toList, [], []⟩

/-- a healthy server holding one untagged archive `a` described by m7. -/
def lrr7 : LRRServer :=
  ⟨true, true, ["a".toList], fun _ => some m7, fun _ _ => UpdResp.success⟩

/-- a server whose credential (shinobu) check fails. -/
def lrr0 : LRRServer :=
  ⟨false, true, [], fun _ => none, fun _ _ => UpdResp.success⟩

/-- an empty database (no tables at all). -/
def db0 : PixivDb := ⟨[], [], [], [], [], []⟩

/-! ### lemmas about sanitize_tag -/

theorem mem_of_mem_dropNegationHyphen (l : PyStr) (c : Char)
    (h : c ∈ dropNegationHyphen l) : c ∈ l := by
  induction l using dropNegationHyphen.induct with
  | case1 => simp [dropNegationHyphen] at h
  | case2 c0 => simp [dropNegationHyphen] at h; simp [h]
  | case3 c0 d rest hcond ih =>
    rw [dropNegationHyphen, if_pos hcond] at h
    rcases List.mem_cons.mp h with h1 | h1
    · simp [h1, (Bool.and_eq_true _ _).mp hcond]
      left
      exact ((decide_eq_true_eq).mp ((Bool.and_eq_true _ _).mp hcond).1).symm
    · exact List.mem_cons_of_mem _ (List.mem_cons_of_mem _ (ih h1))
  | case4 c0 d rest hcond ih =>
    rw [dropNegationHyphen, if_neg hcond] at h
    rcases List.mem_cons.mp h with h1 | h1
    · simp [h1]
    · exact List.mem_cons_of_mem _ (ih h1)

theorem dropNegationHyphen_eq_self (l : PyStr) (h : hasSpaceHyphen l = false) :
    dropNegationHyphen l = l := by
  induction l using dropNegationHyphen.induct with
  | case1 => rfl
  | case2 c0 => rfl
  | case3 c0 d rest hcond ih =>
    exfalso
    rw [hasSpaceHyphen] at h
    simp [hcond] at h
  | case4 c0 d rest hcond ih =>
    rw [dropNegationHyphen, if_neg hcond]
    simp only [hasSpaceHyphen, Bool.or_eq_false_iff] at h
    rw [ih h.2]

theorem not_reserved_of_mem_sanitize (l : PyStr) (c : Char)
    (h : c ∈ sanitize_tag l) : isReservedChar c = false := by
  have h2 := mem_of_mem_dropNegationHyphen _ _ h
  obtain ⟨a, ha, hfa⟩ := List.mem_map.mp h2
  obtain ⟨hal, har⟩ := List.mem_filter.mp ha
  by_cases hu : a = '_'
  · rw [if_pos hu] at hfa
    rw [← hfa]
    decide
  · rw [if_neg hu] at hfa
    rw [← hfa]
    simpa using har

theorem not_underscore_of_mem_sanitize (l : PyStr) (c : Char)
    (h : c ∈ sanitize_tag l) : c ≠ '_' := by
  have h2 := mem_of_mem_dropNegationHyphen _ _ h
  obtain ⟨a, _, hfa⟩ := List.mem_map.mp h2
  by_cases hu : a = '_'
  · rw [if_pos hu] at hfa
    rw [← hfa]
    decide
  · rw [if_neg hu] at hfa
    rw [← hfa]
    exact hu

theorem removeReserved_eq_self (l : PyStr) (h : ∀ c ∈ l, isReservedChar c = false) :
    removeReserved l = l := by
  apply List.filter_eq_self.mpr
  intro a ha
  simp [h a ha]

theorem underscoreToSpace_eq_self (l : PyStr) (h : ∀ c ∈ l, c ≠ '_') :
    underscoreToSpace l = l := by
  induction l with
  | nil => rfl
  | cons a t ih =>
    show (if a = '_' then ' ' else a) :: underscoreToSpace t = a :: t
    rw [if_neg (h a (List.mem_cons_self a t)),
      ih (fun c hc => h c (List.mem_cons_of_mem a hc))]

/-! ### lemmas about the filename parse -/

theorem matchesAt_append (sep t : PyStr) : matchesAt sep (sep ++ t) = true := by
  induction sep with
  | nil => rfl
  | cons a as ih => simp [matchesAt, ih]

theorem splitAtSep_append (a : Char) (as t : PyStr) :
    splitAtSep (a :: as) ((a :: as) ++ t) = some ([], t) := by
  rw [List.cons_append, splitAtSep, ← List.cons_append, matchesAt_append]
  simp [List.drop_left]

theorem not_digit_of_ws (c : Char) (h : isPyWS c = true) : c.isDigit = false := by
  simp only [isPyWS, Bool.or_eq_true, decide_eq_true_eq] at h
  rcases h with ((((h | h) | h) | h) | h) | h <;> subst h <;> decide

theorem splitAtSep_marker_none_of_digits (l : PyStr)
    (h : ∀ c ∈ l, c.isDigit = true) : splitAtSep pixivMarker l = none := by
  induction l with
  | nil => rfl
  | cons c rest ih =>
    have hc : matchesAt pixivMarker (c :: rest) = false := by
      show matchesAt ('p' :: "ixiv_".toList) (c :: rest) = false
      rw [matchesAt]
      have hp : ('p' == c) = false := by
        cases hpc : ('p' == c)
        · rfl
        · exfalso
          have hec : 'p' = c := eq_of_beq hpc
          have := h c (List.mem_cons_self c rest)
          rw [← hec] at this
          exact absurd this (by decide)
      simp [hp]
    rw [splitAtSep, hc]
    simp [ih (fun c2 h2 => h c2 (List.mem_cons_of_mem _ h2))]

theorem pyStrip_digits (l : PyStr) (h : ∀ c ∈ l, c.isDigit = true) :
    pyStrip l = l := by
  have hws : ∀ c ∈ l, isPyWS c = false := by
    intro c hc
    cases hw : isPyWS c
    · rfl
    · exact absurd (h c hc) (by simp [not_digit_of_ws c hw])
  have d1 : l.dropWhile isPyWS = l := by
    cases l with
    | nil => rfl
    | cons a t =>
      rw [List.dropWhile_cons, hws a (List.mem_cons_self a t)]
      simp
  have d2 : l.reverse.dropWhile isPyWS = l.reverse := by
    cases hr : l.reverse with
    | nil => rfl
    | cons a t =>
      have ha : a ∈ l := by
        rw [← List.mem_reverse, hr]
        exact List.mem_cons_self a t
      rw [List.dropWhile_cons, hws a ha]
      simp
  rw [pyStrip, d1, d2, List.reverse_reverse]

theorem parsePixivId_marker_digits (ds : PyStr) (hne : ds ≠ [])
    (hd : ds.all Char.isDigit = true) :
    parsePixivId (pixivMarker ++ ds) = Except.ok (digitsToNat ds) := by
  have hall : ∀ c ∈ ds, c.isDigit = true := List.all_eq_true.mp hd
  have h1 : splitAtSep pixivMarker (pixivMarker ++ ds) = some ([], ds) := by
    show splitAtSep ('p' :: "ixiv_".toList) (('p' :: "ixiv_".toList) ++ ds) =
      some ([], ds)
    exact splitAtSep_append 'p' "ixiv_".toList ds
  have h2 : pieceAfterFirst pixivMarker (pixivMarker ++ ds) = some ds := by
    unfold pieceAfterFirst
    rw [h1]
    show (match splitAtSep pixivMarker ds with
          | none => some ds
          | some q => some q.1) = some ds
    rw [splitAtSep_marker_none_of_digits ds hall]
  unfold parsePixivId
  rw [h2]
  show (if pyIsDigit (pyStrip ds) = true then Except.ok (digitsToNat (pyStrip ds))
        else Except.error Err.invalidPixivId) = Except.ok (digitsToNat ds)
  rw [pyStrip_digits ds hall]
  have h3 : pyIsDigit ds = true := by
    rw [pyIsDigit, hd]
    cases ds with
    | nil => exact absurd rfl hne
    | cons a t => simp
  rw [h3]
  simp

/-! ### lemmas about the retry loop -/

theorem rangePow (b : Nat) : ∀ n : Nat,
    (List.range (n + 1)).map (fun j => 2 ^ (j + b)) =
      2 ^ b :: (List.range n).map (fun j => 2 ^ (j + (b + 1))) := by
  intro n
  induction n with
  | zero => simp [List.range_succ]
  | succ n ih =>
    rw [List.range_succ, List.map_append, ih, List.range_succ, List.map_append]
    simp [Nat.add_right_comm, Nat.add_assoc]

theorem updLoopAux_sleeps_shape (resp : Nat → UpdResp) (gas rc i : Nat) :
    (updLoopAux resp gas rc i).sleeps =
      (List.range (updLoopAux resp gas rc i).sleeps.length).map
        (fun j => 2 ^ (j + (rc + 1))) ∧
    (updLoopAux resp gas rc i).attempts =
      (updLoopAux resp gas rc i).sleeps.length + 1 := by
  induction gas, rc, i using updLoopAux.induct resp with
  | case1 rc i hx => simp [updLoopAux, hx]
  | case2 rc i hx => simp [updLoopAux, hx]
  | case3 rc i hx => simp [updLoopAux, hx]
  | case4 rc i hx => simp [updLoopAux, hx]
  | case5 gas rc i hx => simp [updLoopAux, hx]
  | case6 gas rc i hx => simp [updLoopAux, hx]
  | case7 gas rc i hx hc => simp [updLoopAux, hx, hc]
  | case8 gas rc i hx hc ih =>
    obtain ⟨hs, ha⟩ := ih
    rw [updLoopAux]
    simp only [hx, if_neg hc]
    refine ⟨?_, ?_⟩
    · rw [List.length_cons, rangePow, ← hs]
    · rw [List.length_cons, ha]
  | case9 gas rc i hx hc => simp [updLoopAux, hx, hc]
  | case10 gas rc i hx hc ih =>
    obtain ⟨hs, ha⟩ := ih
    rw [updLoopAux]
    simp only [hx, if_neg hc]
    refine ⟨?_, ?_⟩
    · rw [List.length_cons, rangePow, ← hs]
    · rw [List.length_cons, ha]

/-! ### lemmas about comma split and join -/

theorem pySplitComma_ne_nil (l : PyStr) : pySplitComma l ≠ [] := by
  induction l with
  | nil => simp [pySplitComma]
  | cons c rest ih =>
    rw [pySplitComma]
    by_cases hc : c = ','
    · simp [hc]
    · rw [if_neg hc]
      cases hp : pySplitComma rest with
      | nil => simp
      | cons p ps => simp

theorem pySplitComma_append (a b : PyStr) :
    pySplitComma (a ++ ',' :: b) = pySplitComma a ++ pySplitComma b := by
  induction a with
  | nil => simp [pySplitComma]
  | cons c a2 ih =>
    rw [List.cons_append, pySplitComma, pySplitComma]
    by_cases hc : c = ','
    · rw [if_pos hc, if_pos hc, ih]
      rfl
    · rw [if_neg hc, if_neg hc, ih]
      cases hp : pySplitComma a2 with
      | nil => exact absurd hp (pySplitComma_ne_nil a2)
      | cons p ps => rfl

theorem nil_mem_pySplitComma_joinComma (parts : List PyStr)
    (h : ([] : PyStr) ∈ parts) : ([] : PyStr) ∈ pySplitComma (joinComma parts) := by
  induction parts with
  | nil => simp at h
  | cons p ps ih =>
    cases hps : ps with
    | nil =>
      rw [hps] at h
      rcases List.mem_cons.mp h with h1 | h1
      · rw [joinComma, ← h1]
        simp [pySplitComma]
      · simp at h1
    | cons q rest =>
      rw [joinComma, pySplitComma_append]
      rcases List.mem_cons.mp h with h1 | h1
      · apply List.mem_append_left
        rw [← h1]
        simp [pySplitComma]
      · apply List.mem_append_right
        rw [hps] at ih
        exact ih (hps ▸ h1)

/-! ### lemmas about the result mapping and the pipeline loop -/

theorem mem_addToMapping_self (m : Mapping) (k v : PyStr) :
    v ∈ addToMapping m k v k := by
  simp [addToMapping]

theorem mem_addToMapping_mono (m : Mapping) (k k2 v v2 : PyStr) (h : v ∈ m k) :
    v ∈ addToMapping m k2 v2 k := by
  unfold addToMapping
  by_cases hk : k = k2
  · subst hk
    simp
    exact Or.inl h
  · simp [hk]
    exact h

theorem processAll_mem_mono (lrr : LRRServer) (db : PixivDb) :
    ∀ (l : List PyStr) (acc final : Mapping) (k v : PyStr),
      v ∈ acc k → processAll lrr db l acc = Except.ok final → v ∈ final k := by
  intro l
  induction l with
  | nil =>
    intro acc final k v hv h
    rw [processAll] at h
    cases h
    exact hv
  | cons a rest ih =>
    intro acc final k v hv h
    rw [processAll] at h
    cases hu : update_archive_metadata a lrr db with
    | error e => rw [hu] at h; cases h
    | ok r =>
      rw [hu] at h
      exact ih _ _ _ _ (mem_addToMapping_mono _ _ _ _ _ hv) h

/-! ### lemmas about tag-list construction -/

theorem sanitize_mem_tagRowsTags (db : PixivDb) (tids : List PyStr) (tid : PyStr)
    (h : tid ∈ tids) : sanitize_tag tid ∈ tagRowsTags db tids := by
  induction tids with
  | nil => simp at h
  | cons a rest ih =>
    rw [tagRowsTags]
    rcases List.mem_cons.mp h with h1 | h1
    · subst h1
      apply List.mem_append_left
      rw [tagEntries]
      exact List.mem_cons_self _ _
    · exact List.mem_append_right _ (ih h1)

theorem translation_mem_tagRowsTags (db : PixivDb) (tids : List PyStr)
    (tid tr : PyStr) (h : tid ∈ tids) (htr : enTranslation db tid = some tr) :
    sanitize_tag tr ∈ tagRowsTags db tids := by
  induction tids with
  | nil => simp at h
  | cons a rest ih =>
    rw [tagRowsTags]
    rcases List.mem_cons.mp h with h1 | h1
    · subst h1
      apply List.mem_append_left
      rw [tagEntries, htr]
      exact List.mem_cons_of_mem _ (List.mem_cons_self _ _)
    · exact List.mem_append_right _ (ih h1)

theorem seed_mem_buildTagList (curTags : PyStr) (pid : Nat) (row : SourceImage)
    (mname : PyStr) (db : PixivDb) (seed : PyStr) (h : seed ∈ pySplitComma curTags) :
    pyStrip seed ∈ buildTagList curTags pid row mname db := by
  unfold buildTagList
  exact List.mem_append_left _ (List.mem_append_left _ (List.mem_append_left _
    (List.mem_append_left _ (List.mem_append_left _ (List.mem_map_of_mem pyStrip h)))))

theorem sourceTag_mem_buildTagList (curTags : PyStr) (pid : Nat) (row : SourceImage)
    (mname : PyStr) (db : PixivDb) :
    sourceTag row.image_id ∈ buildTagList curTags pid row mname db := by
  unfold buildTagList
  exact List.mem_append_left _ (List.mem_append_left _ (List.mem_append_left _
    (List.mem_append_left _ (List.mem_append_right _ (List.mem_singleton_self _)))))

theorem userIdTag_mem_buildTagList (curTags : PyStr) (pid : Nat) (row : SourceImage)
    (mname : PyStr) (db : PixivDb) :
    userIdTag row.member_id ∈ buildTagList curTags pid row mname db := by
  unfold buildTagList
  exact List.mem_append_left _ (List.mem_append_left _ (List.mem_append_left _
    (List.mem_append_right _ (List.mem_singleton_self _))))

theorem artistTag_mem_buildTagList (curTags : PyStr) (pid : Nat) (row : SourceImage)
    (mname : PyStr) (db : PixivDb) :
    artistTag mname ∈ buildTagList curTags pid row mname db := by
  unfold buildTagList
  exact List.mem_append_left _ (List.mem_append_left _
    (List.mem_append_right _ (List.mem_singleton_self _)))

theorem tagRow_mem_buildTagList (curTags : PyStr) (pid : Nat) (row : SourceImage)
    (mname : PyStr) (db : PixivDb) (x : PyStr)
    (h : x ∈ tagRowsTags db (imageTagIds db pid)) :
    x ∈ buildTagList curTags pid row mname db := by
  unfold buildTagList
  exact List.mem_append_left _ (List.mem_append_right _ h)

theorem dateTag_mem_buildTagList (curTags : PyStr) (pid : Nat) (row : SourceImage)
    (mname : PyStr) (db : PixivDb) (x : PyStr) (h : x ∈ dateTags db pid) :
    x ∈ buildTagList curTags pid row mname db := by
  unfold buildTagList
  exact List.mem_append_right _ h

/-! ### characterization of a successful resolution -/

theorem resolveMetadata_resolved (fn tags : PyStr) (db : PixivDb)
    (t s : PyStr) (tl : List PyStr)
    (h : resolveMetadata fn tags db = Except.ok (ResolveOutcome.resolved t s tl)) :
    ∃ pid row mem, parsePixivId fn = Except.ok pid ∧ imgFind db pid = some row ∧
      memFind db row.member_id = some mem ∧ t = row.title ∧ s = row.caption ∧
      tl = buildTagList tags pid row mem.2 db := by
  unfold resolveMetadata at h
  split at h
  next e heq => simp at h
  next pid heq =>
    split at h
    next heq2 => simp at h
    next row heq2 =>
      split at h
      next heq3 => simp at h
      next mem heq3 =>
        simp only [Except.ok.injEq, ResolveOutcome.resolved.injEq] at h
        obtain ⟨h1, h2, h3⟩ := h
        exact ⟨pid, row, mem, heq, heq2, heq3, h1.symm, h2.symm, h3.symm⟩

/-! ### the claims -/

/-- claim C1, as amended: the parse of line 61 takes the whole text between
the first `pixiv_` and the next occurrence (or the end of the filename),
strips it, and succeeds only when that entire remainder is a digit run; so a
bare `pixiv_<digits>` filename parses to that number and the §8 scenario
resolves to title `T`, summary `C` and the seven expected tags, while a
digit run followed by further characters (the spec's `pixiv_12345_p0.jpg`)
is rejected as an invalid id, and a filename without `pixiv_` fails with the
index error. -/
theorem claim1_theorem :
    (∀ ds : PyStr, ds ≠ [] → ds.all Char.isDigit = true →
      parsePixivId (pixivMarker ++ ds) = Except.ok (digitsToNat ds)) ∧
    resolveMetadata "pixiv_12345".toList "date_added:500".toList db8 =
      Except.ok (ResolveOutcome.resolved "T".toList "C".toList tl8) ∧
    parsePixivId "nodigits.jpg".toList = Except.error Err.filenameIndex ∧
    parsePixivId "pixiv_12a".toList = Except.error Err.invalidPixivId :=
  ⟨parsePixivId_marker_digits, rfl, rfl, rfl⟩

/-- claim C1, witness: the general digit-run clause at the concrete digit
string `12345`. -/
theorem claim1_witness :
    parsePixivId (pixivMarker ++ "12345".toList) =
      Except.ok (digitsToNat "12345".toList) :=
  claim1_theorem.1 ("12345".toList) (by decide) (by decide)

/-- claim C1, counterexample: on the spec's own end-to-end filename
`pixiv_12345_p0.jpg` the code raises the invalid-id error instead of parsing
image id 12345 and resolving, because the text after `pixiv_` is
`12345_p0.jpg`, which is not all digits. -/
theorem claim1_counterexample :
    resolveMetadata "pixiv_12345_p0.jpg".toList "date_added:500".toList db8 =
      Except.error Err.invalidPixivId := rfl

/-- claim C2, as amended: with max_retries = 3 the loop of lines 121-149
retries whenever `retry_count <= 3`, so five (not four) consecutive 423
responses are needed to exhaust it: the trace is exactly 5 attempts and 4
sleeps of 2, 4, 8, 16 seconds, ending in the persistent-lock fatal error. -/
theorem claim2_theorem :
    updateWithRetry respLockAlways =
      ⟨5, [2, 4, 8, 16], Except.error Err.persistentLock⟩ := rfl

/-- claim C2, counterexample: after four consecutive lock responses the
executor does not fail — it makes a fifth attempt, which here succeeds; the
run returns success after 5 attempts, not a persistent-lock failure after
4. -/
theorem claim2_counterexample :
    updateWithRetry respLocks4 = ⟨5, [2, 4, 8, 16], Except.ok ()⟩ ∧
    (5 : Nat) ≠ 4 :=
  ⟨rfl, by decide⟩

/-- claim C3, as amended: sanitize is idempotent on every input whose
sanitized form no longer contains the two-character sequence space-hyphen
(the replace of line 35 passes over the string once, so its output can still
contain ` -`, e.g. from input ` --`, and a second application then differs). -/
theorem claim3_theorem (l : PyStr) (h : hasSpaceHyphen (sanitize_tag l) = false) :
    sanitize_tag (sanitize_tag l) = sanitize_tag l := by
  have h1 : removeReserved (sanitize_tag l) = sanitize_tag l :=
    removeReserved_eq_self _ (fun c hc => not_reserved_of_mem_sanitize l c hc)
  have h2 : underscoreToSpace (sanitize_tag l) = sanitize_tag l :=
    underscoreToSpace_eq_self _ (fun c hc => not_underscore_of_mem_sanitize l c hc)
  show dropNegationHyphen (underscoreToSpace (removeReserved (sanitize_tag l))) =
    sanitize_tag l
  rw [h1, h2, dropNegationHyphen_eq_self _ h]

/-- claim C3, witness: idempotence on `a_b` (whose sanitized form `a b` has
no space-hyphen pair). -/
theorem claim3_witness :
    sanitize_tag (sanitize_tag "a_b".toList) = sanitize_tag "a_b".toList :=
  claim3_theorem ("a_b".toList) (by decide)

/-- claim C3, counterexample: sanitize is not idempotent on ` --`:
one application gives ` -`, a second gives ` `. -/
theorem claim3_counterexample :
    sanitize_tag (sanitize_tag " --".toList) ≠ sanitize_tag " --".toList := by
  decide

/-- claim C4: three lock responses followed by a success give exactly 4
attempts and exactly 3 sleeps of 2, 4, 8 seconds in that order; and for
every response sequence the sleep performed at retry_count r is 2^(r+1)
seconds — the sleeps list is always the prefix [2, 4, 8, 16, ...] of the
pure backoff schedule, with one more attempt than sleeps. -/
theorem claim4_theorem :
    updateWithRetry respLocks3 = ⟨4, [2, 4, 8], Except.ok ()⟩ ∧
    ∀ resp : Nat → UpdResp,
      (updateWithRetry resp).sleeps =
        (List.range (updateWithRetry resp).sleeps.length).map
          (fun j => 2 ^ (j + 1)) ∧
      (updateWithRetry resp).attempts = (updateWithRetry resp).sleeps.length + 1 := by
  refine ⟨rfl, fun resp => ?_⟩
  have h := updLoopAux_sleeps_shape resp (max_retries + 2) 0 0
  simpa [updateWithRetry] using h

/-- claim C9: a non-423 error response fails immediately with the fatal
remote-rejected error: one attempt, no sleeps, whatever retry_count is. -/
theorem claim9_theorem (resp : Nat → UpdResp) (h0 : resp 0 = UpdResp.otherErr) :
    updateWithRetry resp = ⟨1, [], Except.error Err.remoteRejected⟩ ∧
    ∀ gas rc i, resp i = UpdResp.otherErr →
      updLoopAux resp gas rc i = ⟨1, [], Except.error Err.remoteRejected⟩ := by
  have hgen : ∀ gas rc i, resp i = UpdResp.otherErr →
      updLoopAux resp gas rc i = ⟨1, [], Except.error Err.remoteRejected⟩ := by
    intro gas rc i hi
    cases gas <;> simp [updLoopAux, hi]
  exact ⟨hgen (max_retries + 2) 0 0 h0, hgen⟩

/-- claim C9, witness: the always-rejecting remote. -/
theorem claim9_witness :
    updateWithRetry respOtherErr = ⟨1, [], Except.error Err.remoteRejected⟩ :=
  (claim9_theorem respOtherErr rfl).1

/-- claim C5: in every successful resolution the deduplicated tag set has no
duplicates and loses no element; the artist name, every linked raw tag id,
and every English translation enter the list sanitized; and the synthesized
`source:`/`pixiv_user_id:` tags, the stripped pre-existing seed tags, and
the `date_created:`/`date_uploaded:` epoch tags enter verbatim (their `:`
would not survive sanitization). -/
theorem claim5_theorem (fn tags : PyStr) (db : PixivDb) (t s : PyStr)
    (tl : List PyStr)
    (h : resolveMetadata fn tags db = Except.ok (ResolveOutcome.resolved t s tl)) :
    tl.dedup.Nodup ∧ (∀ x : PyStr, x ∈ tl.dedup ↔ x ∈ tl) ∧
    ∃ pid row mem,
      parsePixivId fn = Except.ok pid ∧
      imgFind db pid = some row ∧
      memFind db row.member_id = some mem ∧
      ("artist:".toList ++ sanitize_tag mem.2) ∈ tl ∧
      (∀ tid ∈ imageTagIds db pid, sanitize_tag tid ∈ tl) ∧
      (∀ tid ∈ imageTagIds db pid, ∀ tr, enTranslation db tid = some tr →
        sanitize_tag tr ∈ tl) ∧
      ("source:https://pixiv.net/artworks/".toList ++
        (toString row.image_id).toList) ∈ tl ∧
      ("pixiv_user_id:".toList ++ (toString row.member_id).toList) ∈ tl ∧
      (∀ seed ∈ pySplitComma tags, pyStrip seed ∈ tl) ∧
      ∀ di, dateFind db pid = some di →
        ("date_created:".toList ++ (toString di.created_date_epoch).toList) ∈ tl ∧
        ("date_uploaded:".toList ++ (toString di.uploaded_date_epoch).toList) ∈ tl := by
  obtain ⟨pid, row, mem, hp, hi, hm, ht, hs, htl⟩ :=
    resolveMetadata_resolved fn tags db t s tl h
  subst htl
  refine ⟨List.nodup_dedup _, fun x => List.mem_dedup, pid, row, mem, hp, hi, hm,
    ?_, ?_, ?_, ?_, ?_, ?_, ?_⟩
  · exact artistTag_mem_buildTagList tags pid row mem.2 db
  · intro tid htid
    exact tagRow_mem_buildTagList tags pid row mem.2 db _
      (sanitize_mem_tagRowsTags db _ tid htid)
  · intro tid htid tr htr
    exact tagRow_mem_buildTagList tags pid row mem.2 db _
      (translation_mem_tagRowsTags db _ tid tr htid htr)
  · exact sourceTag_mem_buildTagList tags pid row mem.2 db
  · exact userIdTag_mem_buildTagList tags pid row mem.2 db
  · intro seed hseed
    exact seed_mem_buildTagList tags pid row mem.2 db seed hseed
  · intro di hdi
    constructor
    · apply dateTag_mem_buildTagList
      rw [dateTags, hdi]
      exact List.mem_cons_self _ _
    · apply dateTag_mem_buildTagList
      rw [dateTags, hdi]
      exact List.mem_cons_of_mem _ (List.mem_cons_self _ _)

/-- claim C5, witness: in the §8 scenario the deduplicated tag set of the
seven resolved tags has no duplicates. -/
theorem claim5_witness : tl8.dedup.Nodup :=
  ( claim5_theorem "pixiv_12345".toList "date_added:500".toList db8
    "T".toList "C".toList tl8 rfl).1

/-- claim C6: an archive whose filename parses to an image id with no
matching image row resolves to the NoMetadata skip outcome (not an error);
the pipeline loop records the arcid under the `PIXIVUTIL_NO_METADATA` bucket
and continues with the remaining archives, and whenever the rest of the run
completes, the arcid is in that bucket of the final mapping. -/
theorem claim6_theorem (lrr : LRRServer) (db : PixivDb) (arcid : PyStr)
    (m : ArchiveMeta) (pid : Nat) (h1 : lrr.meta arcid = some m)
    (h2 : parsePixivId m.filename = Except.ok pid) (h3 : imgFind db pid = none) :
    update_archive_metadata arcid lrr db = Except.ok TaskResultM.noMetadata ∧
    (∀ rest acc, processAll lrr db (arcid :: rest) acc =
      processAll lrr db rest (addToMapping acc TaskResultM.noMetadata.value arcid)) ∧
    (∀ rest acc final, processAll lrr db (arcid :: rest) acc = Except.ok final →
      arcid ∈ final "PIXIVUTIL_NO_METADATA".toList) := by
  have hr : resolveMetadata m.filename m.tags db =
      Except.ok ResolveOutcome.noMetadata := by
    unfold resolveMetadata
    rw [h2]
    show (match imgFind db pid with
          | none => Except.ok ResolveOutcome.noMetadata
          | some row =>
            match memFind db row.member_id with
            | none => Except.error Err.missingMember
            | some mem => Except.ok (ResolveOutcome.resolved row.title row.caption
                (buildTagList m.tags pid row mem.2 db))) =
      Except.ok ResolveOutcome.noMetadata
    rw [h3]
  have hu : update_archive_metadata arcid lrr db =
      Except.ok TaskResultM.noMetadata := by
    unfold update_archive_metadata
    rw [h1]
    show (match resolveMetadata m.filename m.tags db with
          | Except.error e => Except.error e
          | Except.ok ResolveOutcome.noMetadata => Except.ok TaskResultM.noMetadata
          | Except.ok (ResolveOutcome.resolved _ _ _) =>
            match (updateWithRetry (lrr.updResp arcid)).result with
            | Except.error e => Except.error e
            | Except.ok _ => Except.ok TaskResultM.success) =
      Except.ok TaskResultM.noMetadata
    rw [hr]
  refine ⟨hu, ?_, ?_⟩
  · intro rest acc
    rw [processAll, hu]
  · intro rest acc final hfin
    rw [processAll, hu] at hfin
    exact processAll_mem_mono lrr db rest _ final _ arcid
      (mem_addToMapping_self acc TaskResultM.noMetadata.value arcid) hfin

/-- claim C6, witness: archive `abc123` with filename `pixiv_99` against the
§8 store (which has no image 99). -/
theorem claim6_witness :
    update_archive_metadata "abc123".toList lrr6 db8 =
      Except.ok TaskResultM.noMetadata ∧
    processAll lrr6 db8 ["abc123".toList] (fun _ => []) =
      Except.ok (addToMapping (fun _ => []) TaskResultM.noMetadata.value
        "abc123".toList) ∧
    "abc123".toList ∈ addToMapping (fun _ => []) TaskResultM.noMetadata.value
      "abc123".toList "PIXIVUTIL_NO_METADATA".toList := by
  have H := claim6_theorem lrr6 db8 "abc123".toList m6 99 rfl rfl rfl
  refine ⟨H.1, ?_, ?_⟩
  · rw [H.2.1 [] (fun _ => [])]
    rfl
  · exact H.2.2 [] (fun _ => []) _ (by rw [H.2.1 [] (fun _ => [])]; rfl)

/-- claim C7: when the image row exists but its member row does not, the
archive fails with the fatal missing-member error — an outcome distinct from
the NoMetadata skip — and the loop over archives aborts immediately with
that error, whatever archives remain, returning no partial mapping. -/
theorem claim7_theorem (lrr : LRRServer) (db : PixivDb) (arcid : PyStr)
    (m : ArchiveMeta) (pid : Nat) (row : SourceImage)
    (h1 : lrr.meta arcid = some m) (h2 : parsePixivId m.filename = Except.ok pid)
    (h3 : imgFind db pid = some row) (h4 : memFind db row.member_id = none) :
    update_archive_metadata arcid lrr db = Except.error Err.missingMember ∧
    (∀ res : TaskResultM, update_archive_metadata arcid lrr db ≠ Except.ok res) ∧
    (∀ rest acc, processAll lrr db (arcid :: rest) acc =
      Except.error Err.missingMember) := by
  have hr : resolveMetadata m.filename m.tags db =
      Except.error Err.missingMember := by
    unfold resolveMetadata
    rw [h2]
    show (match imgFind db pid with
          | none => Except.ok ResolveOutcome.noMetadata
          | some row =>
            match memFind db row.member_id with
            | none => Except.error Err.missingMember
            | some mem => Except.ok (ResolveOutcome.resolved row.title row.caption
                (buildTagList m.tags pid row mem.2 db))) =
      Except.error Err.missingMember
    rw [h3]
    show (match memFind db row.member_id with
          | none => Except.error Err.missingMember
          | some mem => Except.ok (ResolveOutcome.resolved row.title row.caption
              (buildTagList m.tags pid row mem.2 db))) =
      Except.error Err.missingMember
    rw [h4]
  have hu : update_archive_metadata arcid lrr db =
      Except.error Err.missingMember := by
    unfold update_archive_metadata
    rw [h1]
    show (match resolveMetadata m.filename m.tags db with
          | Except.error e => Except.error e
          | Except.ok ResolveOutcome.noMetadata => Except.ok TaskResultM.noMetadata
          | Except.ok (ResolveOutcome.resolved _ _ _) =>
            match (updateWithRetry (lrr.updResp arcid)).result with
            | Except.error e => Except.error e
            | Except.ok _ => Except.ok TaskResultM.success) =
      Except.error Err.missingMember
    rw [hr]
  refine ⟨hu, ?_, ?_⟩
  · intro res hres
    rw [hu] at hres
    simp at hres
  · intro rest acc
    rw [processAll, hu]

/-- claim C7, witness: archive `a` with filename `pixiv_12345` against the
§8 store with its member table emptied. -/
theorem claim7_witness :
    update_archive_metadata "a".toList lrr7 db7 =
      Except.error Err.missingMember ∧
    processAll lrr7 db7 ["a".toList, "b".toList] (fun _ => []) =
      Except.error Err.missingMember := by
  have H := claim7_theorem lrr7 db7 "a".toList m7 12345
    ⟨12345, 7, "T".toList, "C".toList⟩ rfl rfl rfl rfl
  exact ⟨H.1, H.2.2 ["b".toList] (fun _ => [])⟩

/-- claim C8: whenever the credential check fails or one of the seven
required tables is absent, the run fails with the corresponding
precondition error, and the result does not depend on the untagged-archive
list, per-archive metadata, or update responses at all — so no archive is
read, updated, or recorded. -/
theorem claim8_theorem (lrr : LRRServer) (db : PixivDb)
    (h : lrr.shinobuOk = false ∨
      ∃ t ∈ required_tables, db.tables.contains t = false) :
    required_tables.length = 7 ∧
    ∃ e : Err, (e = Err.authFailed ∨ ∃ t, e = Err.missingTable t) ∧
      ∀ (unt2 : Bool) (u2 : List PyStr) (meta2 : PyStr → Option ArchiveMeta)
        (upd2 : PyStr → Nat → UpdResp),
        update_lrr_metadata ⟨lrr.shinobuOk, unt2, u2, meta2, upd2⟩ db =
          Except.error e := by
  refine ⟨rfl, ?_⟩
  by_cases hs : lrr.shinobuOk = false
  · refine ⟨Err.authFailed, Or.inl rfl, ?_⟩
    intro unt2 u2 meta2 upd2
    simp [update_lrr_metadata, hs]
  · have hs2 : lrr.shinobuOk = true := by
      revert hs
      cases lrr.shinobuOk <;> simp
    rcases h with h | h
    · exact absurd h hs
    · have hsome : (required_tables.find? (fun t => !db.tables.contains t)).isSome := by
        rw [List.find?_isSome]
        obtain ⟨t, ht, hc⟩ := h
        exact ⟨t, ht, by simpa using hc⟩
      obtain ⟨t0, ht0⟩ := Option.isSome_iff_exists.mp hsome
      refine ⟨Err.missingTable t0, Or.inr ⟨t0, rfl⟩, ?_⟩
      intro unt2 u2 meta2 upd2
      simp only [update_lrr_metadata, hs2]
      rw [ht0]
      simp

/-- claim C8, witness: a failed credential check against the empty database
aborts the run with a precondition error. -/
theorem claim8_witness :
    ∃ e : Err, (e = Err.authFailed ∨ ∃ t, e = Err.missingTable t) ∧
      update_lrr_metadata lrr0 db0 = Except.error e := by
  obtain ⟨-, e, he, hall⟩ := claim8_theorem lrr0 db0 (Or.inl rfl)
  exact ⟨e, he, hall true [] (fun _ => none) (fun _ _ => UpdResp.success)⟩

/-- claim C10: when the current archive tag string is empty, splitting it on
`,` seeds the tag list with the empty string, so the empty string is an
element of the built tag list and of its deduplication, and the comma-joined
string pushed to the server contains an empty entry (splitting it back on
`,` recovers an empty piece). -/
theorem claim10_theorem (fn : PyStr) (db : PixivDb) (t s : PyStr)
    (tl : List PyStr)
    (h : resolveMetadata fn [] db = Except.ok (ResolveOutcome.resolved t s tl)) :
    ([] : PyStr) ∈ tl ∧ ([] : PyStr) ∈ tl.dedup ∧
    ([] : PyStr) ∈ pySplitComma (finalTagsString tl) := by
  obtain ⟨pid, row, mem, hp, hi, hm, ht, hs, htl⟩ :=
    resolveMetadata_resolved fn [] db t s tl h
  subst htl
  have h0 : ([] : PyStr) ∈ buildTagList [] pid row mem.2 db := by
    have hseed := seed_mem_buildTagList [] pid row mem.2 db []
      (by simp [pySplitComma])
    exact hseed
  exact ⟨h0, List.mem_dedup.mpr h0,
    nil_mem_pySplitComma_joinComma _ (List.mem_dedup.mpr h0)⟩

/-- claim C10, witness: the §8 scenario with an empty current tag string:
the empty tag is an element of the built list and survives into the pushed
string. -/
theorem claim10_witness :
    ([] : PyStr) ∈ tl10 ∧ ([] : PyStr) ∈ tl10.dedup ∧
    ([] : PyStr) ∈ pySplitComma (finalTagsString tl10) :=
  claim10_theorem "pixiv_12345".toList db8 "T".toList "C".toList tl10 rfl
